import Mathlib

/-!
Verification development for the startup logic of minivtun (src/minivtun.c):
command-line configuration handling, virtual address and route parsing, key
derivation ordering, role dispatch, and a model of the crypto round-trip
described in the design document.  C functions are embedded shallowly as Lean
functions over `List Char` / `String`; the observable effects of `main`
(diagnostics, exits, vt_route_add calls, key derivations, the warning banner
and the role controllers) are embedded as an event trace.
-/

namespace Minivtun

/-- C `isspace` for the scanf conversions: space, \t, \n, \v, \f, \r. -/
def isSpaceC (c : Char) : Bool :=
  c = ' ' || c = '\t' || c = '\n' || c = Char.ofNat 11 || c = Char.ofNat 12 || c = '\r'

/-- Value of a run of decimal digit characters. -/
def digitsToNat (l : List Char) : Nat :=
  l.foldl (fun a c => a * 10 + (c.toNat - 48)) 0

/-- Sign handling of strtol/strtoul and of the scanf conversions: one optional
plus or minus sign. -/
def scanSign : List Char → Bool × List Char
  | '-' :: r => (true, r)
  | '+' :: r => (false, r)
  | l => (false, l)

/-- Common core of scanf %d / %u and of strtoul with base 10: skip whitespace,
an optional sign, then a nonempty run of decimal digits; the remaining
characters are ignored.  Returns the sign and the digit value, or `none` when
no digit is present. -/
def parseScan (l : List Char) : Option (Bool × Nat) :=
  let l1 := l.dropWhile isSpaceC
  let p := scanSign l1
  let ds := p.2.takeWhile Char.isDigit
  if ds.isEmpty then none else some (p.1, digitsToNat ds)

/-- Truncation of an integer to a signed 32-bit `int` value. -/
def toInt32 (v : Int) : Int := (v + 2 ^ 31) % 2 ^ 32 - 2 ^ 31

/-- Model of `sscanf(s, "%d", &x) == 1` with the stored value: strtol-style
parse, clamped to the 64-bit long range, then truncated to `int`. -/
def sscanf_d (l : List Char) : Option Int :=
  (parseScan l).map fun p =>
    let v : Int := if p.1 then -(p.2 : Int) else (p.2 : Int)
    toInt32 (max (min v (2 ^ 63 - 1)) (-(2 ^ 63)))

/-- Model of `sscanf(s, "%u", &x) == 1` with the stored value: strtoul-style
parse (negative input is negated modulo 2^64), truncated to `unsigned int`. -/
def sscanf_u (l : List Char) : Option Nat :=
  (parseScan l).map fun p =>
    let d := min p.2 (2 ^ 64 - 1)
    (if p.1 then (2 ^ 64 - d) % 2 ^ 64 else d) % 2 ^ 32

/-- Model of `(unsigned)strtoul(s, NULL, 10)`: like %u but yields 0 when the
string holds no digits. -/
def strtoul_u (l : List Char) : Nat := (sscanf_u l).getD 0

/-- State-passing core of glibc `inet_pton(AF_INET, ...)`: `cur` is the value
of the octet being read, `acc` the completed octets, `saw` whether the current
octet has a digit.  Exactly four dot-separated decimal octets, each 0..255,
no leading zeros, no other characters. -/
def pton4Aux : List Char → Nat → List Nat → Bool → Option (List Nat)
  | [], cur, acc, saw =>
    if saw && acc.length == 3 then some (acc ++ [cur]) else none
  | c :: r, cur, acc, saw =>
    if c.isDigit then
      (if saw && cur == 0 then none
       else
         let n := cur * 10 + (c.toNat - 48)
         if n > 255 then none else pton4Aux r n acc true)
    else if c = '.' then
      (if saw && acc.length < 3 then pton4Aux r 0 (acc ++ [cur]) false else none)
    else none

/-- glibc `inet_pton(AF_INET, s, &a)`, the address returned as the 32-bit
big-endian value of the four octets. -/
def pton4 (l : List Char) : Option Nat :=
  (pton4Aux l 0 [] false).map fun os => os.foldl (fun a b => a * 256 + b) 0

/-- strchr-based split used throughout minivtun.c: the part before the first
occurrence of `sep` and the part after it, or `none` when `sep` is absent. -/
def splitFirst (sep : Char) : List Char → Option (List Char × List Char)
  | [] => none
  | c :: r =>
    if c = sep then some ([], r)
    else (splitFirst sep r).map fun p => (c :: p.1, p.2)

/-- Embedding of `parse_virtual_route` (minivtun.c lines 108-137): the argument
is copied into a fixed `char expr[80]` with a forced terminator at index 79
(hence the `take 79`), split at the first '/' and then the first '=', and the
three parts go through `inet_pton`, `inet_pton` and `sscanf "%u"`.  A `some`
result is the (network, prefix, gateway) triple passed to the single
`vt_route_add` call; `none` is the diagnostic-and-`exit(1)` path. -/
def parse_virtual_route (arg : String) : Option (Nat × Nat × Nat) :=
  match splitFirst '/' (arg.data.take 79) with
  | none => none
  | some (net, rest) =>
    match splitFirst '=' rest with
    | none => none
    | some (pfx, gw) =>
      match pton4 net, pton4 gw, sscanf_u pfx with
      | some n, some g, some p => some (n, p, g)
      | _, _, _ => none

/-- Observable effects of `main`, in program order.  `diagnostic` stands for a
`fprintf(stderr, "*** ...")` call, `exitEv` for `exit(code)`, `vtRouteAdd` for
a `vt_route_add(&network, prefix, &gateway)` call, the three `derive*` events
for `gen_encrypt_key`, `gen_decrypt_key` and `gen_string_md5sum`,
`warnUnencrypted` for the warning banner, and `runServer` / `runClient` for
entering the corresponding role controller. -/
inductive Event
  | diagnostic
  | exitEv (code : Nat)
  | vtRouteAdd (network pfxLen gateway : Nat)
  | deriveEncrypt
  | deriveDecrypt
  | deriveDigest
  | warnUnencrypted
  | runServer
  | runClient
deriving DecidableEq, Repr

/-- A tokenized command-line option, one constructor per `case` of the getopt
loop in `main` (minivtun.c lines 147-195); `unknownOpt` is getopt's own
unrecognized-option result, the loop's `case '?'`. -/
inductive Opt
  | localAddr (s : String)
  | remoteAddr (s : String)
  | ipv4Addr (s : String)
  | ipv6Addr (s : String)
  | mtuOpt (s : String)
  | keepaliveOpt (s : String)
  | ifnameOpt (s : String)
  | pidfileOpt (s : String)
  | keyOpt (s : String)
  | noEncryption
  | routeOpt (s : String)
  | daemonOpt
  | helpOpt
  | unknownOpt
deriving DecidableEq, Repr

/-- The configuration variables of `main` and the globals the option loop
writes, with their initializers from minivtun.c lines 26-38 and 141-143.
`crypto_passwd = none` models the NULL pointer set by --no-encryption; the
default is the empty string. -/
structure Config where
  loc_addr_pair : Option String := none
  peer_addr_pair : Option String := none
  tun_ip_config : Option String := none
  tun_ip6_config : Option String := none
  crypto_passwd : Option String := some ""
  tun_mtu : Nat := 1416
  keepalive_timeo : Nat := 13
  reconnect_timeo : Nat := 60
  devname : List Char := []
  pid_file : Option String := none
  in_background : Bool := false
deriving DecidableEq, Repr

/-- The configuration state before the option loop runs. -/
def initConfig : Config := {}

/-- Prepend an already-emitted event to the trace of either outcome of the
remaining option processing. -/
def consTrace (v : Event) : Except (List Event) (Config × List Event) →
    Except (List Event) (Config × List Event)
  | .ok (c, tr) => .ok (c, v :: tr)
  | .error tr => .error (v :: tr)

/-- The getopt_long loop of `main`: each option updates the configuration;
--route arguments are parsed immediately (exiting on a bad one), --help exits
with status 0, an unrecognized option exits with status 1.  The result is
either the trace of a run that exited inside the loop, or the final
configuration together with the `vt_route_add` events emitted on the way. -/
def runOpts : List Opt → Config → Except (List Event) (Config × List Event)
  | [], cfg => .ok (cfg, [])
  | o :: rest, cfg =>
    match o with
    | .localAddr s => runOpts rest { cfg with loc_addr_pair := some s }
    | .remoteAddr s => runOpts rest { cfg with peer_addr_pair := some s }
    | .ipv4Addr s => runOpts rest { cfg with tun_ip_config := some s }
    | .ipv6Addr s => runOpts rest { cfg with tun_ip6_config := some s }
    | .mtuOpt s => runOpts rest { cfg with tun_mtu := strtoul_u s.data }
    | .keepaliveOpt s => runOpts rest { cfg with keepalive_timeo := strtoul_u s.data }
    | .ifnameOpt s => runOpts rest { cfg with devname := s.data.take 39 }
    | .pidfileOpt s => runOpts rest { cfg with pid_file := some s }
    | .keyOpt s => runOpts rest { cfg with crypto_passwd := some s }
    | .noEncryption => runOpts rest { cfg with crypto_passwd := none }
    | .daemonOpt => runOpts rest { cfg with in_background := true }
    | .routeOpt s =>
      match parse_virtual_route s with
      | some (n, p, g) => consTrace (.vtRouteAdd n p g) (runOpts rest cfg)
      | none => .error [.diagnostic, .exitEv 1]
    | .helpOpt => .error [.exitEv 0]
    | .unknownOpt => .error [.exitEv 1]

/-- The events of either outcome of the option loop. -/
def resultTrace : Except (List Event) (Config × List Event) → List Event
  | .error tr => tr
  | .ok (_, tr) => tr

/-- Embedding of the IPv4 interface-configuration block of `main` (lines
204-240): split the argument at the first '/', truncate the second component
to the 19 characters that fit `char s_rip[20]`, require the local part to be
an IPv4 address; a parseable remote address is the pointopoint form and adds
the default route (network 0.0.0.0/0, gateway = remote); otherwise the second
component must scan as an int in 1..30 (netmask prefix form).  The Bool is
false on the diagnostic-and-exit paths. -/
def ipv4Step (s : String) : List Event × Bool :=
  match splitFirst '/' s.data with
  | none => ([.diagnostic, .exitEv 1], false)
  | some (lip, rest) =>
    match pton4 lip with
    | none => ([.diagnostic, .exitEv 1], false)
    | some _ =>
      match pton4 (rest.take 19) with
      | some r => ([.vtRouteAdd 0 0 r], true)
      | none =>
        match sscanf_d (rest.take 19) with
        | some na => if 0 < na ∧ na < 31 then ([], true) else ([.diagnostic, .exitEv 1], false)
        | none => ([.diagnostic, .exitEv 1], false)

/-- Embedding of the IPv6 interface-configuration block of `main` (lines
242-270).  `pton6` stands for `inet_pton(AF_INET6, ...)`, an external libc
routine of which only validity matters here; the prefix component is truncated
to the 19 characters of `char s_pfx[20]` and must scan as an int in 1..128. -/
def ipv6Step (pton6 : String → Bool) (s : String) : List Event × Bool :=
  match splitFirst '/' s.data with
  | none => ([.diagnostic, .exitEv 1], false)
  | some (lip, rest) =>
    if pton6 (String.mk lip) then
      match sscanf_d (rest.take 19) with
      | some v => if 0 < v ∧ v ≤ 128 then ([], true) else ([.diagnostic, .exitEv 1], false)
      | none => ([.diagnostic, .exitEv 1], false)
    else ([.diagnostic, .exitEv 1], false)

/-- Run a configuration step only when the corresponding option was given. -/
def optStep (f : String → List Event × Bool) : Option String → List Event × Bool
  | none => ([], true)
  | some s => f s

/-- Key-derivation block of `main` (lines 276-282): with a non-NULL passphrase
the two subkeys and the passphrase digest are derived, once each; with the
NULL passphrase (--no-encryption) the warning banner is printed instead. -/
def cryptoEvents : Option String → List Event
  | some _ => [.deriveEncrypt, .deriveDecrypt, .deriveDigest]
  | none => [.warnUnencrypted]

/-- Modelled from the spec: the role controllers `run_server` and `run_client`
are not part of src/ (only their call sites are); per the design document the
CryptoContext is derived once at startup and the role controllers only run the
event loop, so each is modelled as a single opaque event.  The dispatch itself
is from minivtun.c lines 284-291: a local address selects the server, else a
peer address selects the client, else a diagnostic and `exit(1)`. -/
def roleEvents (cfg : Config) : List Event :=
  match cfg.loc_addr_pair with
  | some _ => [.runServer]
  | none =>
    match cfg.peer_addr_pair with
    | some _ => [.runClient]
    | none => [.diagnostic, .exitEv 1]

/-- The part of `main` after the option loop (lines 197-294): tun device
allocation (`tunOk` stands for its external success; failure is a diagnostic
and `exit(1)`), the IPv4 block, the IPv6 block, key derivation or the warning,
then role dispatch. -/
def mainTail (tunOk : Bool) (pton6 : String → Bool) (cfg : Config) : List Event :=
  if tunOk = false then [.diagnostic, .exitEv 1]
  else
    if (optStep ipv4Step cfg.tun_ip_config).2 = false then
      (optStep ipv4Step cfg.tun_ip_config).1
    else
      if (optStep (ipv6Step pton6) cfg.tun_ip6_config).2 = false then
        (optStep ipv4Step cfg.tun_ip_config).1 ++
          (optStep (ipv6Step pton6) cfg.tun_ip6_config).1
      else
        (optStep ipv4Step cfg.tun_ip_config).1 ++
          (optStep (ipv6Step pton6) cfg.tun_ip6_config).1 ++
          cryptoEvents cfg.crypto_passwd ++ roleEvents cfg

/-- The full observable trace of `main` on a tokenized command line. -/
def minivtunMain (tunOk : Bool) (pton6 : String → Bool) (opts : List Opt) : List Event :=
  match runOpts opts initConfig with
  | .error tr => tr
  | .ok (cfg, tr) => tr ++ mainTail tunOk pton6 cfg

/-- Events a role controller does not belong to: used to express that an event
happens before any role controller starts. -/
def notRole : Event → Bool
  | .runServer => false
  | .runClient => false
  | _ => true

/-- Events the option loop can emit. -/
def loopEv : Event → Bool
  | .vtRouteAdd _ _ _ => true
  | .diagnostic => true
  | .exitEv _ => true
  | _ => false

/-- Cipher block size in bytes (AES, per the `AES_KEY` globals). -/
def blockSize : Nat := 16

/-- Modelled from the spec: the crypto engine (gen_encrypt_key,
gen_decrypt_key and the packet encrypt/decrypt routines) is not part of src/;
only the `AES_KEY` globals and the derivation calls appear there.  Per the
design document the CryptoContext holds an encryption subkey, a decryption
subkey and a keyed digest of the passphrase; here the two subkeys are
represented by the block transformations they induce, and validity states
that decryption inverts encryption blockwise. -/
structure CryptoContext where
  encBlock : List Nat → List Nat
  decBlock : List Nat → List Nat
  passwdDigest : List Nat

/-- A CryptoContext is valid when its decryption subkey inverts its
encryption subkey on every block. -/
def CryptoContext.Valid (ctx : CryptoContext) : Prop :=
  ∀ b, ctx.decBlock (ctx.encBlock b) = b

/-- Modelled from the spec: plaintext is padded to a block boundary with a
reversible, length-recoverable scheme; the byte content is zero-filled and the
original length travels in the message's payload-length field. -/
def padBlocks (p : List Nat) : List Nat :=
  p ++ List.replicate ((blockSize - p.length % blockSize) % blockSize) 0

/-- Split a byte list into cipher blocks of at most `blockSize` bytes. -/
def chunkBlocks (l : List Nat) : List (List Nat) :=
  if l = [] then [] else l.take blockSize :: chunkBlocks (l.drop blockSize)
termination_by l.length
decreasing_by
  simp only [List.length_drop]
  cases l with
  | nil => simp_all
  | cons a t => simp only [blockSize, List.length_cons]; omega

/-- Bytewise xor of two blocks. -/
def xorBytes (a b : List Nat) : List Nat := List.zipWith Nat.xor a b

/-- Modelled from the spec: packet encryption pads the plaintext to a block
boundary, mixes the per-packet IV into each block and applies the encryption
subkey blockwise; the exact original length is carried alongside so the
receiver can recover it. -/
def encryptPacket (ctx : CryptoContext) (iv : List Nat) (p : List Nat) :
    Nat × List (List Nat) :=
  (p.length, (chunkBlocks (padBlocks p)).map fun b => ctx.encBlock (xorBytes b iv))

/-- Modelled from the spec: packet decryption applies the decryption subkey
blockwise, removes the IV, and truncates the joined blocks to the transmitted
original length, undoing the padding. -/
def decryptPacket (ctx : CryptoContext) (iv : List Nat) (c : Nat × List (List Nat)) :
    List Nat :=
  ((c.2.map fun b => xorBytes (ctx.decBlock b) iv).flatten).take c.1

/-! ### Helper lemmas -/

theorem take_length_append {α : Type} : ∀ (l1 l2 : List α), (l1 ++ l2).take l1.length = l1
  | [], _ => rfl
  | a :: l1, l2 => by simp [take_length_append l1 l2]

theorem takeWhile_append_all {α : Type} (p : α → Bool) :
    ∀ (l1 l2 : List α), (∀ x ∈ l1, p x = true) →
    (l1 ++ l2).takeWhile p = l1 ++ l2.takeWhile p
  | [], _, _ => rfl
  | a :: l1, l2, h => by
    have ha := h a (List.mem_cons_self _ _)
    simp [List.takeWhile_cons, ha,
      takeWhile_append_all p l1 l2 (fun x hx => h x (List.mem_cons_of_mem _ hx))]

theorem takeWhile_all {α : Type} (p : α → Bool) (l : List α)
    (h : ∀ x ∈ l, p x = true) : l.takeWhile p = l := by
  have := takeWhile_append_all p l [] h
  simpa using this

theorem splitFirst_append (sep : Char) :
    ∀ (a b : List Char), sep ∉ a → splitFirst sep (a ++ sep :: b) = some (a, b)
  | [], b, _ => by simp [splitFirst]
  | c :: a, b, h => by
    have hc : ¬ c = sep := fun hh => h (hh ▸ List.mem_cons_self _ _)
    simp [splitFirst, hc,
      splitFirst_append sep a b (fun m => h (List.mem_cons_of_mem _ m))]

theorem consTrace_ok {v : Event} {r : Except (List Event) (Config × List Event)}
    {c : Config} {tr : List Event} (h : consTrace v r = .ok (c, tr)) :
    ∃ tr', r = .ok (c, tr') ∧ tr = v :: tr' := by
  cases r with
  | error t => simp [consTrace] at h
  | ok q =>
    obtain ⟨c', tr'⟩ := q
    simp only [consTrace, Except.ok.injEq, Prod.mk.injEq] at h
    exact ⟨tr', by simp [h.1], h.2.symm⟩

theorem resultTrace_consTrace (v : Event) (r : Except (List Event) (Config × List Event)) :
    resultTrace (consTrace v r) = v :: resultTrace r := by
  cases r with
  | error t => rfl
  | ok q => obtain ⟨c, tr⟩ := q; rfl

/-- Any branch of the IPv4 configuration block yields one of three outcomes:
the pointopoint default-route success, the netmask-prefix success, or the
diagnostic-and-exit failure. -/
theorem ipv4Step_cases (s : String) :
    (∃ g, ipv4Step s = ([Event.vtRouteAdd 0 0 g], true)) ∨
    ipv4Step s = ([], true) ∨
    ipv4Step s = ([Event.diagnostic, Event.exitEv 1], false) := by
  unfold ipv4Step
  repeat' split
  all_goals first
    | exact Or.inl ⟨_, rfl⟩
    | exact Or.inr (Or.inl rfl)
    | exact Or.inr (Or.inr rfl)

/-- The IPv6 configuration block either succeeds without events or fails with
the diagnostic-and-exit pair. -/
theorem ipv6Step_cases (pton6 : String → Bool) (s : String) :
    ipv6Step pton6 s = ([], true) ∨
    ipv6Step pton6 s = ([Event.diagnostic, Event.exitEv 1], false) := by
  unfold ipv6Step
  repeat' split
  all_goals first
    | exact Or.inl rfl
    | exact Or.inr rfl

theorem roleEvents_cases (cfg : Config) :
    roleEvents cfg = [Event.runServer] ∨
    roleEvents cfg = [Event.runClient] ∨
    roleEvents cfg = [Event.diagnostic, Event.exitEv 1] := by
  unfold roleEvents
  repeat' split
  all_goals first
    | exact Or.inl rfl
    | exact Or.inr (Or.inl rfl)
    | exact Or.inr (Or.inr rfl)

theorem ipv4Step_mem {s : String} {e : Event} (he : e ∈ (ipv4Step s).1) :
    loopEv e = true := by
  rcases ipv4Step_cases s with ⟨g, h⟩ | h | h <;> rw [h] at he <;>
    simp at he
  · simp [he, loopEv]
  · rcases he with he | he <;> simp [he, loopEv]

theorem ipv6Step_mem {pton6 : String → Bool} {s : String} {e : Event}
    (he : e ∈ (ipv6Step pton6 s).1) : loopEv e = true := by
  rcases ipv6Step_cases pton6 s with h | h <;> rw [h] at he <;> simp at he
  rcases he with he | he <;> simp [he, loopEv]

theorem optStep_mem {f : String → List Event × Bool}
    (hf : ∀ s e, e ∈ (f s).1 → loopEv e = true) {o : Option String} {e : Event}
    (he : e ∈ (optStep f o).1) : loopEv e = true := by
  cases o with
  | none => simp [optStep] at he
  | some s => exact hf s e he

theorem ipv4Step_fail {s : String} (h : (ipv4Step s).2 = false) :
    ipv4Step s = ([Event.diagnostic, Event.exitEv 1], false) := by
  rcases ipv4Step_cases s with ⟨g, hh⟩ | hh | hh <;> rw [hh] at h ⊢ <;> simp_all

theorem ipv6Step_fail {pton6 : String → Bool} {s : String}
    (h : (ipv6Step pton6 s).2 = false) :
    ipv6Step pton6 s = ([Event.diagnostic, Event.exitEv 1], false) := by
  rcases ipv6Step_cases pton6 s with hh | hh <;> rw [hh] at h ⊢ <;> simp_all

theorem loopEv_elim {e : Event} (h : loopEv e = true) :
    e = Event.diagnostic ∨ (∃ n, e = Event.exitEv n) ∨
    ∃ n p g, e = Event.vtRouteAdd n p g := by
  cases e <;> simp_all [loopEv]

/-- Every event the option loop emits is a loop event (a vt_route_add call, a
diagnostic, or an exit). -/
theorem runOpts_mem :
    ∀ (opts : List Opt) (cfg : Config) (e : Event),
    e ∈ resultTrace (runOpts opts cfg) → loopEv e = true := by
  intro opts
  induction opts with
  | nil => intro cfg e he; simp [runOpts, resultTrace] at he
  | cons o rest ih =>
    intro cfg e he
    cases o with
    | routeOpt s =>
      simp only [runOpts] at he
      split at he
      · rw [resultTrace_consTrace] at he
        rcases List.mem_cons.1 he with h | h
        · simp [h, loopEv]
        · exact ih _ e h
      · simp [resultTrace] at he
        rcases he with h | h <;> simp [h, loopEv]
    | helpOpt =>
      simp [runOpts, resultTrace] at he
      simp [he, loopEv]
    | unknownOpt =>
      simp [runOpts, resultTrace] at he
      simp [he, loopEv]
    | localAddr s => exact ih _ e he
    | remoteAddr s => exact ih _ e he
    | ipv4Addr s => exact ih _ e he
    | ipv6Addr s => exact ih _ e he
    | mtuOpt s => exact ih _ e he
    | keepaliveOpt s => exact ih _ e he
    | ifnameOpt s => exact ih _ e he
    | pidfileOpt s => exact ih _ e he
    | keyOpt s => exact ih _ e he
    | noEncryption => exact ih _ e he
    | daemonOpt => exact ih _ e he

/-- A --route option whose argument fails to parse makes the option loop exit
with a diagnostic, provided no earlier --help or unrecognized option exits
first. -/
theorem runOpts_badRoute :
    ∀ (opts : List Opt) (cfg : Config) (s : String),
    Opt.helpOpt ∉ opts → Opt.unknownOpt ∉ opts →
    Opt.routeOpt s ∈ opts → parse_virtual_route s = none →
    ∃ tr, runOpts opts cfg = .error tr ∧
      Event.diagnostic ∈ tr ∧ Event.exitEv 1 ∈ tr := by
  intro opts
  induction opts with
  | nil => intro cfg s _ _ hmem _; exact absurd hmem (List.not_mem_nil _)
  | cons o rest ih =>
    intro cfg s hh hu hmem hbad
    have hh' : Opt.helpOpt ∉ rest := fun m => hh (List.mem_cons_of_mem _ m)
    have hu' : Opt.unknownOpt ∉ rest := fun m => hu (List.mem_cons_of_mem _ m)
    cases o with
    | helpOpt => exact absurd (List.mem_cons_self _ _) hh
    | unknownOpt => exact absurd (List.mem_cons_self _ _) hu
    | routeOpt t =>
      rcases hp : parse_virtual_route t with _ | v
      · exact ⟨[.diagnostic, .exitEv 1], by simp [runOpts, hp], by simp, by simp⟩
      · have hmem' : Opt.routeOpt s ∈ rest := by
          rcases List.mem_cons.1 hmem with h | h
          · obtain ⟨rfl⟩ := Opt.routeOpt.inj h
            rw [hbad] at hp; cases hp
          · exact h
        obtain ⟨tr, htr, hd, he⟩ := ih cfg s hh' hu' hmem' hbad
        obtain ⟨n, p, g⟩ := v
        refine ⟨.vtRouteAdd n p g :: tr, ?_, by simp [hd], by simp [he]⟩
        simp [runOpts, hp, htr, consTrace]
    | localAddr t =>
      have hmem' : Opt.routeOpt s ∈ rest := by
        rcases List.mem_cons.1 hmem with h | h
        · cases h
        · exact h
      obtain ⟨tr, htr, hd, he⟩ := ih _ s hh' hu' hmem' hbad
      exact ⟨tr, by simpa [runOpts] using htr, hd, he⟩
    | remoteAddr t =>
      have hmem' : Opt.routeOpt s ∈ rest := by
        rcases List.mem_cons.1 hmem with h | h
        · cases h
        · exact h
      obtain ⟨tr, htr, hd, he⟩ := ih _ s hh' hu' hmem' hbad
      exact ⟨tr, by simpa [runOpts] using htr, hd, he⟩
    | ipv4Addr t =>
      have hmem' : Opt.routeOpt s ∈ rest := by
        rcases List.mem_cons.1 hmem with h | h
        · cases h
        · exact h
      obtain ⟨tr, htr, hd, he⟩ := ih _ s hh' hu' hmem' hbad
      exact ⟨tr, by simpa [runOpts] using htr, hd, he⟩
    | ipv6Addr t =>
      have hmem' : Opt.routeOpt s ∈ rest := by
        rcases List.mem_cons.1 hmem with h | h
        · cases h
        · exact h
      obtain ⟨tr, htr, hd, he⟩ := ih _ s hh' hu' hmem' hbad
      exact ⟨tr, by simpa [runOpts] using htr, hd, he⟩
    | mtuOpt t =>
      have hmem' : Opt.routeOpt s ∈ rest := by
        rcases List.mem_cons.1 hmem with h | h
        · cases h
        · exact h
      obtain ⟨tr, htr, hd, he⟩ := ih _ s hh' hu' hmem' hbad
      exact ⟨tr, by simpa [runOpts] using htr, hd, he⟩
    | keepaliveOpt t =>
      have hmem' : Opt.routeOpt s ∈ rest := by
        rcases List.mem_cons.1 hmem with h | h
        · cases h
        · exact h
      obtain ⟨tr, htr, hd, he⟩ := ih _ s hh' hu' hmem' hbad
      exact ⟨tr, by simpa [runOpts] using htr, hd, he⟩
    | ifnameOpt t =>
      have hmem' : Opt.routeOpt s ∈ rest := by
        rcases List.mem_cons.1 hmem with h | h
        · cases h
        · exact h
      obtain ⟨tr, htr, hd, he⟩ := ih _ s hh' hu' hmem' hbad
      exact ⟨tr, by simpa [runOpts] using htr, hd, he⟩
    | pidfileOpt t =>
      have hmem' : Opt.routeOpt s ∈ rest := by
        rcases List.mem_cons.1 hmem with h | h
        · cases h
        · exact h
      obtain ⟨tr, htr, hd, he⟩ := ih _ s hh' hu' hmem' hbad
      exact ⟨tr, by simpa [runOpts] using htr, hd, he⟩
    | keyOpt t =>
      have hmem' : Opt.routeOpt s ∈ rest := by
        rcases List.mem_cons.1 hmem with h | h
        · cases h
        · exact h
      obtain ⟨tr, htr, hd, he⟩ := ih _ s hh' hu' hmem' hbad
      exact ⟨tr, by simpa [runOpts] using htr, hd, he⟩
    | noEncryption =>
      have hmem' : Opt.routeOpt s ∈ rest := by
        rcases List.mem_cons.1 hmem with h | h
        · cases h
        · exact h
      obtain ⟨tr, htr, hd, he⟩ := ih _ s hh' hu' hmem' hbad
      exact ⟨tr, by simpa [runOpts] using htr, hd, he⟩
    | daemonOpt =>
      have hmem' : Opt.routeOpt s ∈ rest := by
        rcases List.mem_cons.1 hmem with h | h
        · cases h
        · exact h
      obtain ⟨tr, htr, hd, he⟩ := ih _ s hh' hu' hmem' hbad
      exact ⟨tr, by simpa [runOpts] using htr, hd, he⟩

/-- The option loop only ever raises the timer and MTU fields through their
dedicated options; without those options they keep the initial values. -/
theorem runOpts_timer_defaults :
    ∀ (opts : List Opt) (cfg c : Config) (tr : List Event),
    (∀ s, Opt.mtuOpt s ∉ opts) → (∀ s, Opt.keepaliveOpt s ∉ opts) →
    runOpts opts cfg = .ok (c, tr) →
    c.tun_mtu = cfg.tun_mtu ∧ c.keepalive_timeo = cfg.keepalive_timeo ∧
      c.reconnect_timeo = cfg.reconnect_timeo := by
  intro opts
  induction opts with
  | nil =>
    intro cfg c tr _ _ h
    simp only [runOpts, Except.ok.injEq, Prod.mk.injEq] at h
    rw [← h.1]
    exact ⟨rfl, rfl, rfl⟩
  | cons o rest ih =>
    intro cfg c tr hm ht h
    have hm' : ∀ s, Opt.mtuOpt s ∉ rest :=
      fun s m => hm s (List.mem_cons_of_mem _ m)
    have ht' : ∀ s, Opt.keepaliveOpt s ∉ rest :=
      fun s m => ht s (List.mem_cons_of_mem _ m)
    cases o with
    | mtuOpt t => exact absurd (List.mem_cons_self _ _) (hm t)
    | keepaliveOpt t => exact absurd (List.mem_cons_self _ _) (ht t)
    | helpOpt => simp [runOpts] at h
    | unknownOpt => simp [runOpts] at h
    | routeOpt t =>
      simp only [runOpts] at h
      split at h
      · obtain ⟨tr', h', rfl⟩ := consTrace_ok h
        exact ih cfg c tr' hm' ht' h'
      · cases h
    | localAddr t =>
      simp only [runOpts] at h
      have hres := ih _ c tr hm' ht' h
      exact hres
    | remoteAddr t =>
      simp only [runOpts] at h
      have hres := ih _ c tr hm' ht' h
      exact hres
    | ipv4Addr t =>
      simp only [runOpts] at h
      have hres := ih _ c tr hm' ht' h
      exact hres
    | ipv6Addr t =>
      simp only [runOpts] at h
      have hres := ih _ c tr hm' ht' h
      exact hres
    | ifnameOpt t =>
      simp only [runOpts] at h
      have hres := ih _ c tr hm' ht' h
      exact hres
    | pidfileOpt t =>
      simp only [runOpts] at h
      have hres := ih _ c tr hm' ht' h
      exact hres
    | keyOpt t =>
      simp only [runOpts] at h
      have hres := ih _ c tr hm' ht' h
      exact hres
    | noEncryption =>
      simp only [runOpts] at h
      have hres := ih _ c tr hm' ht' h
      exact hres
    | daemonOpt =>
      simp only [runOpts] at h
      have hres := ih _ c tr hm' ht' h
      exact hres

theorem mainTail_noTun (pton6 : String → Bool) (cfg : Config) :
    mainTail false pton6 cfg = [Event.diagnostic, Event.exitEv 1] := rfl

theorem mainTail_fail1 {pton6 : String → Bool} {cfg : Config}
    (h : (optStep ipv4Step cfg.tun_ip_config).2 = false) :
    mainTail true pton6 cfg = (optStep ipv4Step cfg.tun_ip_config).1 := by
  simp [mainTail, h]

theorem mainTail_fail2 {pton6 : String → Bool} {cfg : Config}
    (h1 : (optStep ipv4Step cfg.tun_ip_config).2 = true)
    (h2 : (optStep (ipv6Step pton6) cfg.tun_ip6_config).2 = false) :
    mainTail true pton6 cfg =
      (optStep ipv4Step cfg.tun_ip_config).1 ++
        (optStep (ipv6Step pton6) cfg.tun_ip6_config).1 := by
  simp [mainTail, h1, h2]

theorem mainTail_ok {pton6 : String → Bool} {cfg : Config}
    (h1 : (optStep ipv4Step cfg.tun_ip_config).2 = true)
    (h2 : (optStep (ipv6Step pton6) cfg.tun_ip6_config).2 = true) :
    mainTail true pton6 cfg =
      (optStep ipv4Step cfg.tun_ip_config).1 ++
        (optStep (ipv6Step pton6) cfg.tun_ip6_config).1 ++
        cryptoEvents cfg.crypto_passwd ++ roleEvents cfg := by
  simp [mainTail, h1, h2]

theorem minivtunMain_error {opts : List Opt} {tr : List Event}
    (h : runOpts opts initConfig = .error tr) :
    ∀ (tunOk : Bool) (pton6 : String → Bool), minivtunMain tunOk pton6 opts = tr := by
  intro tunOk pton6
  simp [minivtunMain, h]

theorem minivtunMain_ok {opts : List Opt} {cfg : Config} {tr0 : List Event}
    (h : runOpts opts initConfig = .ok (cfg, tr0)) :
    ∀ (tunOk : Bool) (pton6 : String → Bool),
    minivtunMain tunOk pton6 opts = tr0 ++ mainTail tunOk pton6 cfg := by
  intro tunOk pton6
  simp [minivtunMain, h]

theorem chunkBlocks_flatten_aux :
    ∀ (n : Nat) (l : List Nat), l.length ≤ n → (chunkBlocks l).flatten = l
  | 0, l, h => by
    have hl : l = [] := List.eq_nil_of_length_eq_zero (Nat.le_zero.1 h)
    subst hl; simp [chunkBlocks]
  | n + 1, l, h => by
    by_cases hl : l = []
    · subst hl; simp [chunkBlocks]
    · rw [chunkBlocks, if_neg hl, List.flatten_cons,
        chunkBlocks_flatten_aux n (l.drop blockSize)
          (by
            have : 0 < l.length := List.length_pos.2 hl
            simp only [List.length_drop, blockSize]
            omega),
        List.take_append_drop]

/-- Joining the cipher blocks of a byte list gives the byte list back. -/
theorem chunkBlocks_flatten (l : List Nat) : (chunkBlocks l).flatten = l :=
  chunkBlocks_flatten_aux l.length l (Nat.le_refl _)

theorem chunkBlocks_mem_length :
    ∀ (n : Nat) (l : List Nat), l.length ≤ n →
    ∀ b ∈ chunkBlocks l, b.length ≤ blockSize
  | 0, l, h => by
    have hl : l = [] := List.eq_nil_of_length_eq_zero (Nat.le_zero.1 h)
    subst hl; simp [chunkBlocks]
  | n + 1, l, h => by
    by_cases hl : l = []
    · subst hl; simp [chunkBlocks]
    · rw [chunkBlocks, if_neg hl]
      intro b hb
      rcases List.mem_cons.1 hb with hb | hb
      · subst hb
        simp [List.length_take]
      · exact chunkBlocks_mem_length n (l.drop blockSize)
          (by
            have : 0 < l.length := List.length_pos.2 hl
            simp only [List.length_drop, blockSize]
            omega) b hb

theorem natXor_cancel (a b : Nat) : Nat.xor (Nat.xor a b) b = a :=
  Nat.xor_cancel_right b a

theorem xorBytes_cancel :
    ∀ (p c : List Nat), p.length ≤ c.length → xorBytes (xorBytes p c) c = p
  | [], _, _ => rfl
  | a :: p, [], h => by simp at h
  | a :: p, b :: c, h => by
    have hrec := xorBytes_cancel p c (by simpa using h)
    simp only [xorBytes, List.zipWith_cons_cons] at hrec ⊢
    rw [natXor_cancel, hrec]

/-- Blockwise decryption undoes blockwise encryption when every block fits in
an IV-sized window. -/
theorem decBlocks_cancel (ctx : CryptoContext) (hv : ctx.Valid) (iv : List Nat) :
    ∀ (bs : List (List Nat)), (∀ b ∈ bs, b.length ≤ iv.length) →
    ((bs.map fun b => ctx.encBlock (xorBytes b iv)).map
      fun b => xorBytes (ctx.decBlock b) iv) = bs
  | [], _ => rfl
  | b :: bs, h => by
    simp only [List.map_cons, hv (xorBytes b iv)]
    rw [xorBytes_cancel b iv (h b (List.mem_cons_self _ _)),
      decBlocks_cancel ctx hv iv bs (fun x hx => h x (List.mem_cons_of_mem _ hx))]

/-! ### Claim theorems -/

/-- C7: for any plaintext IP packet, any valid CryptoContext and every IV in
the valid random space (a cipher-block-sized byte string), decrypting the
encryption of the packet under that context and IV yields exactly the packet,
the exact original length being recovered through the padding scheme. -/
theorem crypto_roundtrip (ctx : CryptoContext) (hv : ctx.Valid)
    (iv p : List Nat) (hiv : iv.length = blockSize) :
    decryptPacket ctx iv (encryptPacket ctx iv p) = p := by
  simp only [encryptPacket, decryptPacket]
  rw [decBlocks_cancel ctx hv iv (chunkBlocks (padBlocks p))
      (fun b hb => by
        rw [hiv]
        exact chunkBlocks_mem_length (padBlocks p).length (padBlocks p)
          (Nat.le_refl _) b hb),
    chunkBlocks_flatten]
  unfold padBlocks
  exact take_length_append p _

/-- Witness for the round-trip theorem at a concrete valid context, IV and
packet. -/
theorem crypto_roundtrip_witness :
    CryptoContext.Valid ⟨id, id, []⟩ ∧
    decryptPacket ⟨id, id, []⟩ (List.replicate 16 7)
      (encryptPacket ⟨id, id, []⟩ (List.replicate 16 7) [1, 2, 3, 4, 5])
      = [1, 2, 3, 4, 5] :=
  ⟨fun _ => rfl,
   crypto_roundtrip ⟨id, id, []⟩ (fun _ => rfl) (List.replicate 16 7)
     [1, 2, 3, 4, 5] rfl⟩

/-- C3: when no overriding command-line option is given, the keepalive
interval defaults to 13, the reconnect/expiry timeout defaults to 60 and the
tunnel MTU defaults to 1416. -/
theorem default_parameters (opts : List Opt) (cfg : Config) (tr : List Event)
    (hm : ∀ s, Opt.mtuOpt s ∉ opts) (ht : ∀ s, Opt.keepaliveOpt s ∉ opts)
    (hok : runOpts opts initConfig = .ok (cfg, tr)) :
    cfg.keepalive_timeo = 13 ∧ cfg.reconnect_timeo = 60 ∧ cfg.tun_mtu = 1416 := by
  obtain ⟨h1, h2, h3⟩ := runOpts_timer_defaults opts initConfig cfg tr hm ht hok
  exact ⟨h2, h3, h1⟩

/-- Witness for the defaults on the empty command line. -/
theorem default_parameters_witness :
    initConfig.keepalive_timeo = 13 ∧ initConfig.reconnect_timeo = 60 ∧
      initConfig.tun_mtu = 1416 :=
  default_parameters [] initConfig [] (fun _ => List.not_mem_nil _)
    (fun _ => List.not_mem_nil _) rfl

/-- C10: parse_virtual_route copies its argument into a fixed 80-byte buffer
and forces a terminator at index 79, so the parse is invariant under
truncation to the first 79 characters, and acceptance, rejection and the
values passed to vt_route_add depend only on the argument's first 79
characters. -/
theorem route_first79 :
    (∀ arg : String, parse_virtual_route arg =
      parse_virtual_route (String.mk (arg.data.take 79))) ∧
    (∀ s t : String, s.data.take 79 = t.data.take 79 →
      parse_virtual_route s = parse_virtual_route t) := by
  constructor
  · intro arg
    unfold parse_virtual_route
    simp [List.take_take]
  · intro s t h
    unfold parse_virtual_route
    rw [h]

/-- Witness: two concrete 80-character arguments differing only in the 80th
character parse identically. -/
theorem route_first79_witness :
    (("10.0.0.0/16=10.7.0.1                                                           X" : String).data.take 79
      = ("10.0.0.0/16=10.7.0.1                                                           Y" : String).data.take 79) ∧
    parse_virtual_route
      "10.0.0.0/16=10.7.0.1                                                           X"
      = parse_virtual_route
      "10.0.0.0/16=10.7.0.1                                                           Y" :=
  ⟨by decide, route_first79.2 _ _ (by decide)⟩

/-- C4 counterexample: an 80-character --route argument of the form
network/prefix=gateway whose network (10.0.0.0), prefix (16, written with
leading zeros) and gateway (121.121.121.121) all parse; the 80-byte buffer
truncates the gateway text to 121.121.121.12, so the single vt_route_add call
receives gateway 2038003980 instead of the argument's parsed gateway
2038004089. -/
theorem route_parse_truncation_counterexample :
    parse_virtual_route
      "10.0.0.0/0000000000000000000000000000000000000000000000000000016=121.121.121.121"
      = some (167772160, 16, 2038003980) ∧
    pton4 "10.0.0.0".data = some 167772160 ∧
    sscanf_u "0000000000000000000000000000000000000000000000000000016".data = some 16 ∧
    pton4 "121.121.121.121".data = some 2038004089 ∧
    (2038003980 : Nat) ≠ 2038004089 :=
  ⟨by decide, by decide, by decide, by decide, by decide⟩

/-- C4 (amended): for every --route argument of the form
network/prefix=gateway that is at most 79 characters long, in which the
network and gateway parse as IPv4 addresses and the prefix parses as an
unsigned integer, parse_virtual_route accepts and vt_route_add is called
exactly once with the parsed network, prefix length and gateway. -/
theorem route_parse_ok (net pfx gw : String) (n g p : Nat)
    (hn : pton4 net.data = some n) (hg : pton4 gw.data = some g)
    (hp : sscanf_u pfx.data = some p)
    (hslash : '/' ∉ net.data) (heqs : '=' ∉ pfx.data)
    (hlen : net.data.length + pfx.data.length + gw.data.length + 2 ≤ 79) :
    parse_virtual_route (net ++ "/" ++ pfx ++ "=" ++ gw) = some (n, p, g) := by
  unfold parse_virtual_route
  have hdata : (net ++ "/" ++ pfx ++ "=" ++ gw).data
      = net.data ++ '/' :: (pfx.data ++ '=' :: gw.data) := by
    simp [String.data_append]
  rw [hdata, List.take_of_length_le
      (by simp only [List.length_append, List.length_cons]; omega)]
  simp [splitFirst_append '/' _ _ hslash, splitFirst_append '=' _ _ heqs,
    hn, hg, hp]

/-- Witness for the amended route parse at a concrete well-formed argument. -/
theorem route_parse_ok_witness :
    parse_virtual_route ("192.168.0.0" ++ "/" ++ "16" ++ "=" ++ "10.7.0.1")
      = some (3232235520, 16, 168230913) :=
  route_parse_ok "192.168.0.0" "16" "10.7.0.1" 3232235520 168230913 16
    (by decide) (by decide) (by decide) (by decide) (by decide) (by decide)

theorem loopEv_notRole {e : Event} (h : loopEv e = true) : notRole e = true := by
  cases e <;> simp_all [loopEv, notRole]

theorem cryptoEvents_notRole {o : Option String} {e : Event}
    (he : e ∈ cryptoEvents o) : notRole e = true := by
  cases o with
  | none =>
    simp [cryptoEvents] at he
    simp [he, notRole]
  | some pw =>
    simp [cryptoEvents] at he
    rcases he with h | h | h <;> simp [h, notRole]

theorem warn_mem_cryptoEvents {o : Option String} :
    Event.warnUnencrypted ∈ cryptoEvents o ↔ o = none := by
  cases o <;> simp [cryptoEvents]

/-- C8: for an --ipv4-addr argument of the form local/X (X at most the 19
characters that fit the copy buffer) in which X does not parse as an IPv4
address, X is accepted as a prefix length exactly when it scans as an int
between 1 and 30; otherwise — including the otherwise-legal prefix lengths 0,
31 and 32 — the block takes the diagnostic-and-exit path. -/
theorem ipv4_prefix_range (lip X : String) (l : Nat)
    (hnoslash : '/' ∉ lip.data) (hlen : X.data.length ≤ 19)
    (hlip : pton4 lip.data = some l) (hX : pton4 X.data = none) :
    ((ipv4Step (lip ++ "/" ++ X)).2 = true ↔
      ∃ na, sscanf_d X.data = some na ∧ 1 ≤ na ∧ na ≤ 30) ∧
    ((ipv4Step (lip ++ "/" ++ X)).2 = false →
      Event.diagnostic ∈ (ipv4Step (lip ++ "/" ++ X)).1 ∧
      Event.exitEv 1 ∈ (ipv4Step (lip ++ "/" ++ X)).1) := by
  constructor
  · have hdata : (lip ++ "/" ++ X).data = lip.data ++ '/' :: X.data := by
      simp [String.data_append]
    unfold ipv4Step
    rw [hdata, splitFirst_append '/' _ _ hnoslash]
    simp only [hlip, List.take_of_length_le hlen, hX]
    rcases h : sscanf_d X.data with _ | na
    · simp
    · by_cases hc : 0 < na ∧ na < 31
      · simp [hc]
        omega
      · simp [hc]
        omega
  · intro h
    rw [ipv4Step_fail h]
    simp

/-- Witness for the prefix-length guard: 10.0.0.1/31 is rejected. -/
theorem ipv4_prefix_range_witness :
    ('/' ∉ ("10.0.0.1" : String).data) ∧
    (((ipv4Step ("10.0.0.1" ++ "/" ++ "31")).2 = true ↔
      ∃ na, sscanf_d ("31" : String).data = some na ∧ 1 ≤ na ∧ na ≤ 30) ∧
     ((ipv4Step ("10.0.0.1" ++ "/" ++ "31")).2 = false →
      Event.diagnostic ∈ (ipv4Step ("10.0.0.1" ++ "/" ++ "31")).1 ∧
      Event.exitEv 1 ∈ (ipv4Step ("10.0.0.1" ++ "/" ++ "31")).1)) :=
  ⟨by decide,
   ipv4_prefix_range "10.0.0.1" "31" 167772161 (by decide) (by decide)
     (by decide) (by decide)⟩

/-- C9: when the --ipv4-addr argument is a pointopoint pair local/remote whose
remote component parses as an IPv4 address, a vt_route_add call with network
0.0.0.0, prefix length 0 and gateway equal to the remote virtual address
occurs before any role controller starts. -/
theorem pointopoint_default_route (pton6 : String → Bool) (opts : List Opt)
    (cfg : Config) (tr0 : List Event) (s : String) (lip rest : List Char)
    (l g : Nat)
    (hok : runOpts opts initConfig = .ok (cfg, tr0))
    (hs : cfg.tun_ip_config = some s)
    (hsp : splitFirst '/' s.data = some (lip, rest))
    (hl : pton4 lip = some l)
    (hg : pton4 (rest.take 19) = some g) :
    Event.vtRouteAdd 0 0 g ∈ (minivtunMain true pton6 opts).takeWhile notRole := by
  have hstep : ipv4Step s = ([Event.vtRouteAdd 0 0 g], true) := by
    unfold ipv4Step
    rw [hsp]
    simp [hl, hg]
  have hopt : optStep ipv4Step cfg.tun_ip_config = ([Event.vtRouteAdd 0 0 g], true) := by
    rw [hs]; exact hstep
  have htr0 : ∀ e ∈ tr0, notRole e = true := by
    intro e he
    exact loopEv_notRole (runOpts_mem opts initConfig e (by rw [hok]; exact he))
  rw [minivtunMain_ok hok]
  cases hr2 : (optStep (ipv6Step pton6) cfg.tun_ip6_config).2 with
  | false =>
    rw [mainTail_fail2 (by rw [hopt]) hr2]
    rw [takeWhile_all]
    · rw [hopt]
      simp
    · intro e he
      rcases List.mem_append.1 he with he | he
      · exact htr0 e he
      · rcases List.mem_append.1 he with he | he
        · rw [hopt] at he
          simp at he
          simp [he, notRole]
        · exact loopEv_notRole (optStep_mem (fun s e h => ipv6Step_mem h) he)
  | true =>
    rw [mainTail_ok (by rw [hopt]) hr2]
    have hassoc :
        tr0 ++ ((optStep ipv4Step cfg.tun_ip_config).1 ++
          (optStep (ipv6Step pton6) cfg.tun_ip6_config).1 ++
          cryptoEvents cfg.crypto_passwd ++ roleEvents cfg)
        = (tr0 ++ ((optStep ipv4Step cfg.tun_ip_config).1 ++
            (optStep (ipv6Step pton6) cfg.tun_ip6_config).1 ++
            cryptoEvents cfg.crypto_passwd)) ++ roleEvents cfg := by
      simp [List.append_assoc]
    rw [hassoc, takeWhile_append_all]
    · apply List.mem_append_left
      apply List.mem_append_right
      rw [hopt]
      simp
    · intro e he
      rcases List.mem_append.1 he with he | he
      · exact htr0 e he
      · rcases List.mem_append.1 he with he | he
        · rcases List.mem_append.1 he with he | he
          · rw [hopt] at he
            simp at he
            simp [he, notRole]
          · exact loopEv_notRole (optStep_mem (fun s e h => ipv6Step_mem h) he)
        · exact cryptoEvents_notRole he

/-- Witness for the pointopoint default route on a concrete command line. -/
theorem pointopoint_default_route_witness :
    Event.vtRouteAdd 0 0 167772162 ∈
      (minivtunMain true (fun _ => false)
        [Opt.ipv4Addr "10.0.0.1/10.0.0.2", Opt.remoteAddr "1.2.3.4:9000"]).takeWhile
        notRole :=
  pointopoint_default_route (fun _ => false)
    [Opt.ipv4Addr "10.0.0.1/10.0.0.2", Opt.remoteAddr "1.2.3.4:9000"]
    { tun_ip_config := some "10.0.0.1/10.0.0.2",
      peer_addr_pair := some "1.2.3.4:9000" } [] "10.0.0.1/10.0.0.2"
    "10.0.0.1".data "10.0.0.2".data 167772161 167772162
    rfl rfl (by decide) (by decide) (by decide)

/-- C5: with the configuration steps passing, a supplied local listen address
runs the server role; otherwise a supplied peer address runs the client role;
with neither, the process prints a diagnostic and exits with status 1 and no
role controller runs. -/
theorem role_dispatch (pton6 : String → Bool) (opts : List Opt) (cfg : Config)
    (tr0 : List Event)
    (hok : runOpts opts initConfig = .ok (cfg, tr0))
    (h4 : ∀ s, cfg.tun_ip_config = some s → (ipv4Step s).2 = true)
    (h6 : ∀ s, cfg.tun_ip6_config = some s → (ipv6Step pton6 s).2 = true) :
    (cfg.loc_addr_pair.isSome → Event.runServer ∈ minivtunMain true pton6 opts) ∧
    (cfg.loc_addr_pair = none → cfg.peer_addr_pair.isSome →
      Event.runClient ∈ minivtunMain true pton6 opts) ∧
    (cfg.loc_addr_pair = none → cfg.peer_addr_pair = none →
      Event.diagnostic ∈ minivtunMain true pton6 opts ∧
      Event.exitEv 1 ∈ minivtunMain true pton6 opts ∧
      Event.runServer ∉ minivtunMain true pton6 opts ∧
      Event.runClient ∉ minivtunMain true pton6 opts) := by
  have hr1 : (optStep ipv4Step cfg.tun_ip_config).2 = true := by
    cases hc : cfg.tun_ip_config with
    | none => rfl
    | some s => exact h4 s hc
  have hr2 : (optStep (ipv6Step pton6) cfg.tun_ip6_config).2 = true := by
    cases hc : cfg.tun_ip6_config with
    | none => rfl
    | some s => exact h6 s hc
  rw [minivtunMain_ok hok, mainTail_ok hr1 hr2]
  refine ⟨?_, ?_, ?_⟩
  · intro hloc
    apply List.mem_append_right
    apply List.mem_append_right
    rcases hl : cfg.loc_addr_pair with _ | a
    · rw [hl] at hloc; cases hloc
    · simp [roleEvents, hl]
  · intro hloc hpeer
    apply List.mem_append_right
    apply List.mem_append_right
    rcases hp : cfg.peer_addr_pair with _ | a
    · rw [hp] at hpeer; cases hpeer
    · simp [roleEvents, hloc, hp]
  · intro hloc hpeer
    have hrole : roleEvents cfg = [Event.diagnostic, Event.exitEv 1] := by
      simp [roleEvents, hloc, hpeer]
    have hnomem : ∀ e, e ∈ tr0 ++ ((optStep ipv4Step cfg.tun_ip_config).1 ++
        (optStep (ipv6Step pton6) cfg.tun_ip6_config).1 ++
        cryptoEvents cfg.crypto_passwd ++ roleEvents cfg) → notRole e = true := by
      intro e he
      rcases List.mem_append.1 he with he | he
      · exact loopEv_notRole (runOpts_mem opts initConfig e (by rw [hok]; exact he))
      · rcases List.mem_append.1 he with he | he
        · rcases List.mem_append.1 he with he | he
          · rcases List.mem_append.1 he with he | he
            · exact loopEv_notRole (optStep_mem (fun s e h => ipv4Step_mem h) he)
            · exact loopEv_notRole (optStep_mem (fun s e h => ipv6Step_mem h) he)
          · exact cryptoEvents_notRole he
        · rw [hrole] at he
          simp at he
          rcases he with he | he <;> simp [he, notRole]
    refine ⟨?_, ?_, ?_, ?_⟩
    · apply List.mem_append_right
      apply List.mem_append_right
      simp [hrole]
    · apply List.mem_append_right
      apply List.mem_append_right
      simp [hrole]
    · intro hmem
      have := hnomem _ hmem
      simp [notRole] at this
    · intro hmem
      have := hnomem _ hmem
      simp [notRole] at this

/-- Witness for role dispatch: the empty command line supplies neither
address, so the process reports and exits without entering a role. -/
theorem role_dispatch_witness :
    Event.diagnostic ∈ minivtunMain true (fun _ => false) [] ∧
    Event.exitEv 1 ∈ minivtunMain true (fun _ => false) [] ∧
    Event.runServer ∉ minivtunMain true (fun _ => false) [] ∧
    Event.runClient ∉ minivtunMain true (fun _ => false) [] :=
  (role_dispatch (fun _ => false) [] initConfig [] rfl
    (fun _ hs => by cases hs) (fun _ hs => by cases hs)).2.2 rfl rfl

theorem not_role_mem {tr : List Event} (hall : ∀ e ∈ tr, notRole e = true) :
    Event.runServer ∉ tr ∧ Event.runClient ∉ tr := by
  constructor <;> intro hm
  · have := hall _ hm; simp [notRole] at this
  · have := hall _ hm; simp [notRole] at this

theorem not_mem_of_loopEv {tr : List Event} (hall : ∀ e ∈ tr, loopEv e = true)
    {e : Event} (he : loopEv e = false) : e ∉ tr := fun hm => by
  have := hall e hm; rw [he] at this; cases this

theorem ipv4Step_fails_of {s : String}
    (h : splitFirst '/' s.data = none ∨
      ∃ lip rest, splitFirst '/' s.data = some (lip, rest) ∧
        (pton4 lip = none ∨
         (pton4 (rest.take 19) = none ∧
          ¬ ∃ na, sscanf_d (rest.take 19) = some na ∧ 0 < na ∧ na < 31))) :
    (ipv4Step s).2 = false := by
  unfold ipv4Step
  rcases h with h | ⟨lip, rest, hsp, h⟩
  · rw [h]
  · rw [hsp]
    rcases h with h | ⟨h1, h2⟩
    · simp [h]
    · rcases hl : pton4 lip with _ | l
      · simp [hl]
      · simp only [hl, h1]
        rcases hna : sscanf_d (rest.take 19) with _ | na
        · simp
        · have hcond : ¬(0 < na ∧ na < 31) := fun hc => h2 ⟨na, hna, hc.1, hc.2⟩
          simp [hcond]

theorem ipv6Step_fails_of {pton6 : String → Bool} {s : String}
    (h : splitFirst '/' s.data = none ∨
      ∃ lip rest, splitFirst '/' s.data = some (lip, rest) ∧
        (pton6 (String.mk lip) = false ∨
         ¬ ∃ v, sscanf_d (rest.take 19) = some v ∧ 0 < v ∧ v ≤ 128)) :
    (ipv6Step pton6 s).2 = false := by
  unfold ipv6Step
  rcases h with h | ⟨lip, rest, hsp, h⟩
  · rw [h]
  · rw [hsp]
    rcases h with h | h
    · simp [h]
    · rcases hp6 : pton6 (String.mk lip) with _ | _
      · simp [hp6]
      · simp only [hp6, if_true]
        rcases hv : sscanf_d (rest.take 19) with _ | v
        · simp
        · have hcond : ¬(0 < v ∧ v ≤ 128) := fun hc => h ⟨v, hv, hc.1, hc.2⟩
          simp [hcond]

/-- C1: every command-line configuration argument with invalid address, route
or prefix syntax — a --route argument missing '/' or '=' or whose
network/gateway/prefix do not parse (parse_virtual_route rejects), an
--ipv4-addr argument missing '/' or with an unparseable local address or an
illegal second component, or an --ipv6-addr argument missing '/' or with an
unparseable address or an out-of-range prefix length — makes the process print
a diagnostic and exit with status 1 at startup, before any role controller
runs.  (Stated for command lines without --help or unrecognized options,
which exit the option loop on their own first.) -/
theorem config_error_exits (tunOk : Bool) (pton6 : String → Bool)
    (opts : List Opt)
    (hh : Opt.helpOpt ∉ opts) (hu : Opt.unknownOpt ∉ opts)
    (hbad :
      (∃ s, Opt.routeOpt s ∈ opts ∧ parse_virtual_route s = none) ∨
      (∃ cfg tr0 s, runOpts opts initConfig = .ok (cfg, tr0) ∧
        cfg.tun_ip_config = some s ∧
        (splitFirst '/' s.data = none ∨
         ∃ lip rest, splitFirst '/' s.data = some (lip, rest) ∧
           (pton4 lip = none ∨
            (pton4 (rest.take 19) = none ∧
             ¬ ∃ na, sscanf_d (rest.take 19) = some na ∧ 0 < na ∧ na < 31)))) ∨
      (∃ cfg tr0 s, runOpts opts initConfig = .ok (cfg, tr0) ∧
        cfg.tun_ip6_config = some s ∧
        (splitFirst '/' s.data = none ∨
         ∃ lip rest, splitFirst '/' s.data = some (lip, rest) ∧
           (pton6 (String.mk lip) = false ∨
            ¬ ∃ v, sscanf_d (rest.take 19) = some v ∧ 0 < v ∧ v ≤ 128)))) :
    Event.diagnostic ∈ minivtunMain tunOk pton6 opts ∧
    Event.exitEv 1 ∈ minivtunMain tunOk pton6 opts ∧
    Event.runServer ∉ minivtunMain tunOk pton6 opts ∧
    Event.runClient ∉ minivtunMain tunOk pton6 opts := by
  have htr0all : ∀ (cfg : Config) (tr0 : List Event),
      runOpts opts initConfig = .ok (cfg, tr0) → ∀ e ∈ tr0, loopEv e = true := by
    intro cfg tr0 hok e he
    exact runOpts_mem opts initConfig e (by rw [hok]; exact he)
  rcases hbad with ⟨s, hmem, hbadp⟩ | ⟨cfg, tr0, s, hok, hs, hcond⟩ |
    ⟨cfg, tr0, s, hok, hs, hcond⟩
  · obtain ⟨tr, htr, hd, he⟩ := runOpts_badRoute opts initConfig s hh hu hmem hbadp
    rw [minivtunMain_error htr]
    have hall : ∀ e ∈ tr, loopEv e = true := by
      intro e hm
      exact runOpts_mem opts initConfig e (by rw [htr]; exact hm)
    have hnr := not_role_mem (fun e hm => loopEv_notRole (hall e hm))
    exact ⟨hd, he, hnr.1, hnr.2⟩
  · have hfail : (ipv4Step s).2 = false := ipv4Step_fails_of hcond
    have hopt : optStep ipv4Step cfg.tun_ip_config
        = ([Event.diagnostic, Event.exitEv 1], false) := by
      rw [hs]; exact ipv4Step_fail hfail
    rw [minivtunMain_ok hok]
    cases tunOk with
    | false =>
      rw [mainTail_noTun]
      have hall : ∀ e ∈ tr0 ++ [Event.diagnostic, Event.exitEv 1], notRole e = true := by
        intro e hm
        rcases List.mem_append.1 hm with hm | hm
        · exact loopEv_notRole (htr0all cfg tr0 hok e hm)
        · simp at hm
          rcases hm with hm | hm <;> simp [hm, notRole]
      have hnr := not_role_mem hall
      exact ⟨by simp, by simp, hnr.1, hnr.2⟩
    | true =>
      rw [mainTail_fail1 (by rw [hopt]), hopt]
      have hall : ∀ e ∈ tr0 ++ [Event.diagnostic, Event.exitEv 1], notRole e = true := by
        intro e hm
        rcases List.mem_append.1 hm with hm | hm
        · exact loopEv_notRole (htr0all cfg tr0 hok e hm)
        · simp at hm
          rcases hm with hm | hm <;> simp [hm, notRole]
      have hnr := not_role_mem hall
      exact ⟨by simp, by simp, hnr.1, hnr.2⟩
  · have hfail : (ipv6Step pton6 s).2 = false := ipv6Step_fails_of hcond
    have hopt6 : optStep (ipv6Step pton6) cfg.tun_ip6_config
        = ([Event.diagnostic, Event.exitEv 1], false) := by
      rw [hs]; exact ipv6Step_fail hfail
    rw [minivtunMain_ok hok]
    cases tunOk with
    | false =>
      rw [mainTail_noTun]
      have hall : ∀ e ∈ tr0 ++ [Event.diagnostic, Event.exitEv 1], notRole e = true := by
        intro e hm
        rcases List.mem_append.1 hm with hm | hm
        · exact loopEv_notRole (htr0all cfg tr0 hok e hm)
        · simp at hm
          rcases hm with hm | hm <;> simp [hm, notRole]
      have hnr := not_role_mem hall
      exact ⟨by simp, by simp, hnr.1, hnr.2⟩
    | true =>
      cases hr1 : (optStep ipv4Step cfg.tun_ip_config).2 with
      | false =>
        rw [mainTail_fail1 hr1]
        have h41 : (optStep ipv4Step cfg.tun_ip_config).1
            = [Event.diagnostic, Event.exitEv 1] := by
          rcases hc : cfg.tun_ip_config with _ | s4
          · rw [hc] at hr1; simp [optStep] at hr1
          · rw [hc] at hr1
            exact congrArg Prod.fst (ipv4Step_fail hr1)
        rw [h41]
        have hall : ∀ e ∈ tr0 ++ [Event.diagnostic, Event.exitEv 1], notRole e = true := by
          intro e hm
          rcases List.mem_append.1 hm with hm | hm
          · exact loopEv_notRole (htr0all cfg tr0 hok e hm)
          · simp at hm
            rcases hm with hm | hm <;> simp [hm, notRole]
        have hnr := not_role_mem hall
        exact ⟨by simp, by simp, hnr.1, hnr.2⟩
      | true =>
        rw [mainTail_fail2 hr1 (by rw [hopt6]), hopt6]
        have hall : ∀ e ∈ tr0 ++ ((optStep ipv4Step cfg.tun_ip_config).1 ++
            [Event.diagnostic, Event.exitEv 1]), notRole e = true := by
          intro e hm
          rcases List.mem_append.1 hm with hm | hm
          · exact loopEv_notRole (htr0all cfg tr0 hok e hm)
          · rcases List.mem_append.1 hm with hm | hm
            · exact loopEv_notRole (optStep_mem (fun s e h => ipv4Step_mem h) hm)
            · simp at hm
              rcases hm with hm | hm <;> simp [hm, notRole]
        have hnr := not_role_mem hall
        refine ⟨?_, ?_, hnr.1, hnr.2⟩
        · apply List.mem_append_right
          apply List.mem_append_right
          simp
        · apply List.mem_append_right
          apply List.mem_append_right
          simp

/-- Witness for the configuration-error exit on a concrete bad route. -/
theorem config_error_exits_witness :
    Event.diagnostic ∈ minivtunMain true (fun _ => false) [Opt.routeOpt "junk"] ∧
    Event.exitEv 1 ∈ minivtunMain true (fun _ => false) [Opt.routeOpt "junk"] ∧
    Event.runServer ∉ minivtunMain true (fun _ => false) [Opt.routeOpt "junk"] ∧
    Event.runClient ∉ minivtunMain true (fun _ => false) [Opt.routeOpt "junk"] :=
  config_error_exits true (fun _ => false) [Opt.routeOpt "junk"]
    (by decide) (by decide) (Or.inl ⟨"junk", by decide, by decide⟩)

/-- C2 counterexample: with the default empty passphrase (no --encryption-key
and no --no-encryption given) the program derives keys from the empty string,
enters the server role, and never prints the unencrypted-transmission warning,
although the claim counts an empty passphrase as operating unencrypted. -/
theorem warning_missing_counterexample :
    initConfig.crypto_passwd = some "" ∧
    Event.warnUnencrypted ∉
      minivtunMain true (fun _ => false) [Opt.localAddr "0.0.0.0:4096"] ∧
    Event.runServer ∈
      minivtunMain true (fun _ => false) [Opt.localAddr "0.0.0.0:4096"] :=
  ⟨rfl, by decide, by decide⟩

/-- C2 (amended): the startup warning that transmission will not be encrypted
is emitted exactly when the passphrase is disabled via --no-encryption (the
NULL passphrase); an empty but present passphrase derives keys from the empty
string and emits no warning. -/
theorem warning_iff_disabled (pton6 : String → Bool) (opts : List Opt)
    (cfg : Config) (tr0 : List Event)
    (hok : runOpts opts initConfig = .ok (cfg, tr0))
    (h4 : ∀ s, cfg.tun_ip_config = some s → (ipv4Step s).2 = true)
    (h6 : ∀ s, cfg.tun_ip6_config = some s → (ipv6Step pton6 s).2 = true) :
    Event.warnUnencrypted ∈ minivtunMain true pton6 opts ↔
      cfg.crypto_passwd = none := by
  have hr1 : (optStep ipv4Step cfg.tun_ip_config).2 = true := by
    cases hc : cfg.tun_ip_config with
    | none => rfl
    | some s => exact h4 s hc
  have hr2 : (optStep (ipv6Step pton6) cfg.tun_ip6_config).2 = true := by
    cases hc : cfg.tun_ip6_config with
    | none => rfl
    | some s => exact h6 s hc
  rw [minivtunMain_ok hok, mainTail_ok hr1 hr2]
  constructor
  · intro hm
    rcases List.mem_append.1 hm with hm | hm
    · have := runOpts_mem opts initConfig _ (by rw [hok]; exact hm)
      simp [loopEv] at this
    · rcases List.mem_append.1 hm with hm | hm
      · rcases List.mem_append.1 hm with hm | hm
        · rcases List.mem_append.1 hm with hm | hm
          · have := optStep_mem (fun s e h => ipv4Step_mem h) hm
            simp [loopEv] at this
          · have := optStep_mem (fun s e h => ipv6Step_mem h) hm
            simp [loopEv] at this
        · exact warn_mem_cryptoEvents.1 hm
      · rcases roleEvents_cases cfg with h | h | h <;> rw [h] at hm <;> simp at hm
  · intro hnone
    apply List.mem_append_right
    apply List.mem_append_left
    apply List.mem_append_right
    simp [hnone, cryptoEvents]

/-- Witness: with --no-encryption on the command line the warning is
emitted. -/
theorem warning_iff_disabled_witness :
    Event.warnUnencrypted ∈
      minivtunMain true (fun _ => false) [Opt.noEncryption, Opt.localAddr "a"] :=
  (warning_iff_disabled (fun _ => false) [Opt.noEncryption, Opt.localAddr "a"]
    { crypto_passwd := none, loc_addr_pair := some "a" } [] rfl
    (fun _ hs => by cases hs) (fun _ hs => by cases hs)).2 rfl

/-- C6: with a configured (non-NULL) passphrase, the encryption subkey, the
decryption subkey and the keyed digest of the passphrase are each derived
exactly once, before the role controller starts, and are not re-derived
afterwards (the role controllers, modelled from the spec, perform no
derivation). -/
theorem derive_once (pton6 : String → Bool) (opts : List Opt) (cfg : Config)
    (tr0 : List Event) (pw : String)
    (hok : runOpts opts initConfig = .ok (cfg, tr0))
    (hpw : cfg.crypto_passwd = some pw)
    (h4 : ∀ s, cfg.tun_ip_config = some s → (ipv4Step s).2 = true)
    (h6 : ∀ s, cfg.tun_ip6_config = some s → (ipv6Step pton6 s).2 = true) :
    (minivtunMain true pton6 opts).count Event.deriveEncrypt = 1 ∧
    (minivtunMain true pton6 opts).count Event.deriveDecrypt = 1 ∧
    (minivtunMain true pton6 opts).count Event.deriveDigest = 1 ∧
    Event.deriveEncrypt ∈ (minivtunMain true pton6 opts).takeWhile notRole ∧
    Event.deriveDecrypt ∈ (minivtunMain true pton6 opts).takeWhile notRole ∧
    Event.deriveDigest ∈ (minivtunMain true pton6 opts).takeWhile notRole := by
  have hr1 : (optStep ipv4Step cfg.tun_ip_config).2 = true := by
    cases hc : cfg.tun_ip_config with
    | none => rfl
    | some s => exact h4 s hc
  have hr2 : (optStep (ipv6Step pton6) cfg.tun_ip6_config).2 = true := by
    cases hc : cfg.tun_ip6_config with
    | none => rfl
    | some s => exact h6 s hc
  rw [minivtunMain_ok hok, mainTail_ok hr1 hr2, hpw]
  have htr0 : ∀ e ∈ tr0, loopEv e = true := by
    intro e he
    exact runOpts_mem opts initConfig e (by rw [hok]; exact he)
  have he1 : ∀ e ∈ (optStep ipv4Step cfg.tun_ip_config).1, loopEv e = true :=
    fun e he => optStep_mem (fun s e h => ipv4Step_mem h) he
  have he2 : ∀ e ∈ (optStep (ipv6Step pton6) cfg.tun_ip6_config).1, loopEv e = true :=
    fun e he => optStep_mem (fun s e h => ipv6Step_mem h) he
  have hrole : ∀ e, e = Event.deriveEncrypt ∨ e = Event.deriveDecrypt ∨
      e = Event.deriveDigest → e ∉ roleEvents cfg := by
    intro e hd hm
    rcases roleEvents_cases cfg with h | h | h <;> rw [h] at hm <;> simp at hm <;>
      rcases hd with hd | hd | hd <;> simp [hd] at hm
  have hcount : ∀ e, loopEv e = false → e ∉ roleEvents cfg →
      (tr0 ++ ((optStep ipv4Step cfg.tun_ip_config).1 ++
        (optStep (ipv6Step pton6) cfg.tun_ip6_config).1 ++
        cryptoEvents (some pw) ++ roleEvents cfg)).count e
      = (cryptoEvents (some pw)).count e := by
    intro e hle hre
    rw [List.count_append, List.count_append, List.count_append, List.count_append,
      List.count_eq_zero.2 (not_mem_of_loopEv htr0 hle),
      List.count_eq_zero.2 (not_mem_of_loopEv he1 hle),
      List.count_eq_zero.2 (not_mem_of_loopEv he2 hle),
      List.count_eq_zero.2 hre]
    omega
  have hmemtw : ∀ e, e ∈ cryptoEvents (some pw) →
      e ∈ (tr0 ++ ((optStep ipv4Step cfg.tun_ip_config).1 ++
        (optStep (ipv6Step pton6) cfg.tun_ip6_config).1 ++
        cryptoEvents (some pw) ++ roleEvents cfg)).takeWhile notRole := by
    intro e hmem
    have hassoc :
        tr0 ++ ((optStep ipv4Step cfg.tun_ip_config).1 ++
          (optStep (ipv6Step pton6) cfg.tun_ip6_config).1 ++
          cryptoEvents (some pw) ++ roleEvents cfg)
        = (tr0 ++ ((optStep ipv4Step cfg.tun_ip_config).1 ++
            (optStep (ipv6Step pton6) cfg.tun_ip6_config).1 ++
            cryptoEvents (some pw))) ++ roleEvents cfg := by
      simp [List.append_assoc]
    rw [hassoc, takeWhile_append_all]
    · apply List.mem_append_left
      apply List.mem_append_right
      apply List.mem_append_right
      exact hmem
    · intro x hx
      rcases List.mem_append.1 hx with hx | hx
      · exact loopEv_notRole (htr0 x hx)
      · rcases List.mem_append.1 hx with hx | hx
        · rcases List.mem_append.1 hx with hx | hx
          · exact loopEv_notRole (he1 x hx)
          · exact loopEv_notRole (he2 x hx)
        · exact cryptoEvents_notRole hx
  refine ⟨?_, ?_, ?_, ?_, ?_, ?_⟩
  · rw [hcount Event.deriveEncrypt rfl (hrole _ (Or.inl rfl))]; rfl
  · rw [hcount Event.deriveDecrypt rfl (hrole _ (Or.inr (Or.inl rfl)))]; rfl
  · rw [hcount Event.deriveDigest rfl (hrole _ (Or.inr (Or.inr rfl)))]; rfl
  · exact hmemtw _ (by simp [cryptoEvents])
  · exact hmemtw _ (by simp [cryptoEvents])
  · exact hmemtw _ (by simp [cryptoEvents])

/-- Witness for single derivation on a concrete client command line. -/
theorem derive_once_witness :
    (minivtunMain true (fun _ => false)
      [Opt.keyOpt "secret", Opt.remoteAddr "1.2.3.4:9000"]).count
      Event.deriveEncrypt = 1 ∧
    (minivtunMain true (fun _ => false)
      [Opt.keyOpt "secret", Opt.remoteAddr "1.2.3.4:9000"]).count
      Event.deriveDecrypt = 1 ∧
    (minivtunMain true (fun _ => false)
      [Opt.keyOpt "secret", Opt.remoteAddr "1.2.3.4:9000"]).count
      Event.deriveDigest = 1 ∧
    Event.deriveEncrypt ∈ (minivtunMain true (fun _ => false)
      [Opt.keyOpt "secret", Opt.remoteAddr "1.2.3.4:9000"]).takeWhile notRole ∧
    Event.deriveDecrypt ∈ (minivtunMain true (fun _ => false)
      [Opt.keyOpt "secret", Opt.remoteAddr "1.2.3.4:9000"]).takeWhile notRole ∧
    Event.deriveDigest ∈ (minivtunMain true (fun _ => false)
      [Opt.keyOpt "secret", Opt.remoteAddr "1.2.3.4:9000"]).takeWhile notRole :=
  derive_once (fun _ => false) [Opt.keyOpt "secret", Opt.remoteAddr "1.2.3.4:9000"]
    { crypto_passwd := some "secret", peer_addr_pair := some "1.2.3.4:9000" } []
    "secret" rfl rfl (fun _ hs => by cases hs) (fun _ hs => by cases hs)

end Minivtun
